import Mathlib

set_option linter.unusedVariables false

/-!
Shallow embedding of the core of the snow-portal backend
(src/backend/server.js): the JS value model, unwrapAuditVal, the sn
retry loop, requireAuth, resolveRef, the display-name cache, the
activity reconciliation handler and the record update pipeline.

Modelling conventions: JS strings are Lean String; parsed JSON objects
are association lists; an absent object property or JS undefined is
modelled by Option or by the jundefined constructor; upstream network
effects are passed in as explicit oracle arguments (what the fetches
would return), so every handler is a pure function of its inputs and
the upstream responses.  The mojibake glyphs that the source file
carries (its em dash and arrow were double-encoded) are reproduced
byte-for-byte via unicode escapes.
-/

/-- JS/JSON value as it appears in parsed upstream payloads.  Numbers are
restricted to integers (the audit payloads handled by the embedded code
carry integral numerics); arrays are not modelled, as no embedded code
path receives one. -/
inductive JsVal where
  | jnull
  | jundefined
  | jstr (s : String)
  | jint (n : Int)
  | jbool (b : Bool)
  | jobj (fields : List (String × JsVal))

/-- ASCII lower-casing, as String.prototype.toLowerCase acts on the ASCII
field names the code lowercases. -/
def jsLowerChar (c : Char) : Char :=
  if 'A' ≤ c && c ≤ 'Z' then Char.ofNat (c.toNat + 32) else c

/-- JS toLowerCase restricted to ASCII input. -/
def jsToLower (s : String) : String := ⟨s.data.map jsLowerChar⟩

/-- ASCII upper-casing, as String.prototype.toUpperCase acts on the ASCII
journal element names. -/
def jsUpperChar (c : Char) : Char :=
  if 'a' ≤ c && c ≤ 'z' then Char.ofNat (c.toNat - 32) else c

/-- JS toUpperCase restricted to ASCII input. -/
def jsToUpper (s : String) : String := ⟨s.data.map jsUpperChar⟩

/-- Whitespace recognised by String.prototype.trim (ASCII range). -/
def jsSpace (c : Char) : Bool :=
  c == ' ' || c == '\t' || c == '\n' || c == '\r' || c == '\x0b' || c == '\x0c'

/-- JS String.prototype.trim. -/
def jsTrim (s : String) : String :=
  ⟨((s.data.dropWhile jsSpace).reverse.dropWhile jsSpace).reverse⟩

/-- JS String(x) conversion for the values the code stringifies. -/
def jsToString : JsVal → String
  | .jnull => "null"
  | .jundefined => "undefined"
  | .jstr s => s
  | .jint n => toString n
  | .jbool b => if b then "true" else "false"
  | .jobj _ => "[object Object]"

/-- JS truthiness of a value. -/
def jsTruthy : JsVal → Bool
  | .jnull => false
  | .jundefined => false
  | .jstr s => !(s == "")
  | .jint n => !(n == 0)
  | .jbool b => b
  | .jobj _ => true

/-- Property read (x.k), yielding undefined when the property is absent or
the value is not an object; mirrors hasOwnProperty followed by access. -/
def findField (k : String) : List (String × JsVal) → Option JsVal
  | [] => none
  | (k₂, v) :: rest => if k₂ == k then some v else findField k rest

/-- The single remaining key fallback of unwrapAuditVal
(Object.keys(x).length === 1). -/
def singleVal : List (String × JsVal) → Option JsVal
  | [(_, v)] => some v
  | _ => none

/-- The fixed priority order in which unwrapAuditVal walks an object:
display_value, then value, then name, then user_name, then the single
remaining key.  (server.js lines 78-83) -/
def objCandidate (fs : List (String × JsVal)) : Option JsVal :=
  match findField "display_value" fs with
  | some v => some v
  | none =>
    match findField "value" fs with
    | some v => some v
    | none =>
      match findField "name" fs with
      | some v => some v
      | none =>
        match findField "user_name" fs with
        | some v => some v
        | none => singleVal fs

theorem findField_sizeOf {k : String} : ∀ {fs : List (String × JsVal)} {v : JsVal},
    findField k fs = some v → sizeOf v < sizeOf fs := by
  intro fs
  induction fs with
  | nil => intro v h; simp [findField] at h
  | cons p rest ih =>
    intro v h
    obtain ⟨k₂, w⟩ := p
    by_cases hk : (k₂ == k) = true
    · simp [findField, hk] at h
      subst h
      simp
      omega
    · simp [findField, hk] at h
      have := ih h
      simp
      omega

theorem singleVal_sizeOf : ∀ {fs : List (String × JsVal)} {v : JsVal},
    singleVal fs = some v → sizeOf v < sizeOf fs := by
  intro fs v h
  match fs, h with
  | [(k, w)], h =>
    simp [singleVal] at h
    subst h
    simp
    omega

theorem objCandidate_sizeOf {fs : List (String × JsVal)} {v : JsVal}
    (h : objCandidate fs = some v) : sizeOf v < sizeOf fs := by
  unfold objCandidate at h
  split at h
  next w1 h1 =>
    obtain rfl : w1 = v := Option.some.inj h
    exact findField_sizeOf h1
  next =>
    split at h
    next w2 h2 =>
      obtain rfl : w2 = v := Option.some.inj h
      exact findField_sizeOf h2
    next =>
      split at h
      next w3 h3 =>
        obtain rfl : w3 = v := Option.some.inj h
        exact findField_sizeOf h3
      next =>
        split at h
        next w4 h4 =>
          obtain rfl : w4 = v := Option.some.inj h
          exact findField_sizeOf h4
        next => exact singleVal_sizeOf h

/-- The recursive core of unwrapAuditVal (server.js lines 73-90): scalars
stringify, null and undefined become the empty string, objects recurse
through the priority chain of label-bearing keys, and a plain object with
no usable key stringifies to [object Object] which the code maps to the
empty string. -/
def unwrapDeep : JsVal → String
  | .jnull => ""
  | .jundefined => ""
  | .jstr s => s
  | .jint n => toString n
  | .jbool b => if b then "true" else "false"
  | .jobj fs =>
    match h : objCandidate fs with
    | some v => unwrapDeep v
    | none => ""
termination_by v => sizeOf v
decreasing_by
  have := objCandidate_sizeOf h
  simp only [JsVal.jobj.sizeOf_spec]
  omega

/-- unwrapAuditVal (server.js line 91): the deep unwrap followed by trim. -/
def unwrapAuditVal (v : JsVal) : String := jsTrim (unwrapDeep v)

example : unwrapAuditVal (.jstr " a ") = "a" := by
  simp [unwrapAuditVal, unwrapDeep]
  decide

example : unwrapAuditVal (.jobj [("display_value", .jstr "High"), ("value", .jstr "1")]) = "High" := by
  simp [unwrapAuditVal, unwrapDeep, objCandidate, findField, singleVal]
  decide

/-! ## Upstream Client: the sn retry loop (server.js lines 95-161) -/

/-- A parsed upstream HTTP response as the sn loop inspects it:
the status, whether the body carries the upstream failure marker
(data.status equal to the string failure, or a data.error property), and
the error detail the loop would extract for a failure (nested detail,
message, raw text or status line; the extraction itself is string
plumbing and is carried here as one plain string). -/
structure HttpResp where
  status : Nat
  failureMarker : Bool
  detail : String

/-- What one fetch attempt yields: a response, or a network-level
failure (timeout abort, connection reset). -/
inductive AttemptResult where
  | resp (r : HttpResp)
  | netErr (msg : String)

/-- The typed failure sn raises: the message and, when a response was
received, the HTTP status attached as err.httpStatus. -/
structure UpstreamError where
  msg : String
  httpStatus : Option Nat
deriving Repr, DecidableEq

/-- res.ok of the fetch API: status in the range 200-299. -/
def respOk (s : Nat) : Bool := decide (200 ≤ s) && decide (s ≤ 299)

/-- The while loop of sn (server.js lines 106-159), parametrised by what
the k-th fetch attempt returns.  Mirrors the source control flow: a
successful response without failure marker returns; a 5xx response with
budget left retries; otherwise a typed error is thrown -- but that throw
sits inside the try block, so the catch clause (written for network
failures) also retries it while attempt < retries.  The fuel argument
counts the loop iterations still permitted by the guard
attempt <= retries; the zero case is the dead throw after the loop.
Returns the outcome together with the number of fetches performed. -/
def snLoop (outcomes : Nat → AttemptResult) (retries : Nat) :
    Nat → Nat → Except UpstreamError Unit × Nat
  | _, 0 => (.error ⟨"Unknown error", none⟩, 0)
  | attempt, fuel + 1 =>
    match outcomes attempt with
    | .resp r =>
      if respOk r.status && !r.failureMarker then
        (.ok (), 1)
      else if decide (500 ≤ r.status) && decide (attempt < retries) then
        let rec2 := snLoop outcomes retries (attempt + 1) fuel
        (rec2.1, rec2.2 + 1)
      else if decide (attempt < retries) then
        -- the thrown UpstreamError lands in the catch, which retries
        let rec2 := snLoop outcomes retries (attempt + 1) fuel
        (rec2.1, rec2.2 + 1)
      else
        (.error ⟨r.detail, some r.status⟩, 1)
    | .netErr m =>
      if decide (attempt < retries) then
        let rec2 := snLoop outcomes retries (attempt + 1) fuel
        (rec2.1, rec2.2 + 1)
      else
        (.error ⟨m, none⟩, 1)

/-- One sn call with the given retry budget (default 1 at every call
site): the loop starts at attempt 0 and may run retries + 1 iterations. -/
def snCall (outcomes : Nat → AttemptResult) (retries : Nat) :
    Except UpstreamError Unit × Nat :=
  snLoop outcomes retries 0 (retries + 1)

/-! ## requireAuth (server.js lines 168-182) -/

/-- JS startsWith, reducible in the kernel. -/
def jsStartsWith (s p : String) : Bool := p.data.isPrefixOf s.data

/-- JS slice from a character offset (the source slices off the 7 ASCII
characters of the Bearer marker). -/
def jsSlice (s : String) (n : Nat) : String := ⟨s.data.drop n⟩

/-- A stored session (server.js line 65): the upstream user record, the
credential mode, the acting credentials, the user sys_id and the cached
group list.  Only the user record matters to the embedded handlers; the
rest is carried for shape. -/
structure Session where
  user : JsVal
  via : String
  userSysId : String
  groups : List String

/-- The token requireAuth extracts: the bearer token when the
Authorization header starts with the Bearer marker, otherwise the token
query parameter (empty string when absent). -/
def requireAuthToken (authHeader queryToken : String) : String :=
  if jsStartsWith authHeader "Bearer " then jsSlice authHeader 7 else queryToken

/-- requireAuth: look the extracted token up in the session map; an empty
token or an unknown token rejects with 401. -/
def requireAuth (authHeader queryToken : String)
    (sessions : List (String × Session)) : Option Session :=
  let token := requireAuthToken authHeader queryToken
  if token == "" then none
  else (sessions.find? (fun p => p.1 == token)).map (fun p => p.2)

/-! ## Reference Resolver (server.js lines 68-69 and 184-203) -/

/-- isSysId / SYSID_RE: exactly 32 characters, each a hex digit, case
insensitive (the regex carries the i flag). -/
def isHexDigit (c : Char) : Bool :=
  ('0' ≤ c && c ≤ '9') || ('a' ≤ c && c ≤ 'f') || ('A' ≤ c && c ≤ 'F')

def isSysId (s : String) : Bool :=
  s.data.length == 32 && s.data.all isHexDigit

/-- pickId (server.js line 69): take the value property of a truthy
object carrying one, else the input itself. -/
def pickId (v : JsVal) : JsVal :=
  match v with
  | .jobj fs =>
    match findField "value" fs with
    | some w => w
    | none => v
  | _ => v

/-- isSysId applied the way the source guards it: only strings pass the
typeof check. -/
def isSysIdVal : JsVal → Bool
  | .jstr s => isSysId s
  | _ => false

/-- resolveRef (server.js lines 184-203), with the upstream lookup
abstracted as an oracle: lookupHit is the sys_id of the first query hit
when the one-row lookup would find one with a truthy sys_id, none
otherwise.  Returns the resolved value together with the number of
upstream calls issued. -/
def resolveRef (lookupHit : Option String) (forceTable : String)
    (displayOrId : JsVal) : JsVal × Nat :=
  let candidate := pickId displayOrId
  if !jsTruthy candidate then (candidate, 0)
  else if isSysIdVal candidate then (candidate, 0)
  else
    match lookupHit with
    | some id => (.jstr id, 1)
    | none => (candidate, 1)

/-! ## Display-Name Cache (server.js lines 247-268) -/

/-- The placeholder dash the source substitutes for empty values; the
source file is double-encoded, so the literal is the three-character
mojibake of an em dash. -/
def placeholderDash : String := "â€”"

/-- A cache entry: the resolved label and its expiry in epoch
milliseconds. -/
structure NameCacheEntry where
  name : String
  exp : Nat
deriving Repr, DecidableEq

/-- The fixed TTL: 5 minutes in milliseconds. -/
def NAME_TTL_MS : Nat := 5 * 60 * 1000

/-- Map.get on the cache. -/
def cacheGet (k : String) (m : List (String × NameCacheEntry)) :
    Option NameCacheEntry :=
  (m.find? (fun p => p.1 == k)).map (fun p => p.2)

/-- Map.set on the cache: replace in place, else append. -/
def cacheSet (k : String) (v : NameCacheEntry) :
    List (String × NameCacheEntry) → List (String × NameCacheEntry)
  | [] => [(k, v)]
  | (k₂, v₂) :: rest =>
    if k₂ == k then (k, v) :: rest else (k₂, v₂) :: cacheSet k v rest

/-- The upstream record the name fetch parses: its name and user_name
fields, with the empty string standing for an absent or falsy field. -/
structure NameFetchRec where
  name : String
  user_name : String

/-- r.result.name or r.result.user_name or sys_id (server.js line 262). -/
def nmOf (r : NameFetchRec) (sys_id : String) : String :=
  if !(r.name == "") then r.name
  else if !(r.user_name == "") then r.user_name
  else sys_id

/-- _resolveDisplayName (server.js lines 251-268), with the upstream
fetch abstracted as an oracle: fetch is some record when the upstream GET
succeeds and none when it throws.  Returns the label, the cache after the
call, and the number of upstream fetches issued. -/
def resolveDisplayName (cache : List (String × NameCacheEntry)) (now : Nat)
    (fetch : Option NameFetchRec) (table sys_id : String) :
    String × List (String × NameCacheEntry) × Nat :=
  if sys_id == "" then (placeholderDash, cache, 0)
  else
    let key := table ++ ":" ++ sys_id
    let doFetch : String × List (String × NameCacheEntry) × Nat :=
      match fetch with
      | some r =>
        let nm := nmOf r sys_id
        (nm, cacheSet key ⟨nm, now + NAME_TTL_MS⟩ cache, 1)
      | none => (sys_id, cache, 1)
    match cacheGet key cache with
    | some hit => if now < hit.exp then (hit.name, cache, 0) else doFetch
    | none => doFetch

theorem cacheGet_cacheSet (k : String) (v : NameCacheEntry) :
    ∀ m : List (String × NameCacheEntry), cacheGet k (cacheSet k v m) = some v := by
  intro m
  induction m with
  | nil => simp [cacheGet, cacheSet]
  | cons p rest ih =>
    obtain ⟨k₂, v₂⟩ := p
    by_cases hk : (k₂ == k) = true
    · simp [cacheGet, cacheSet, hk]
    · simp only [cacheSet, hk]
      simp only [cacheGet, List.find?] at ih ⊢
      simp [hk, ih]

/-! ## Activity Reconciler (server.js lines 510-599) -/

/-- A row of the journal feed (sys_journal_field, fetched without display
values, so every field is a plain string). -/
structure JournalRow where
  sys_created_on : String
  sys_created_by : String
  element : String
  value : String

/-- A row of the field-audit feed (sys_audit, fetched with display
values, so oldvalue and newvalue may be nested objects). -/
structure AuditRow where
  sys_created_on : String
  sys_created_by : String
  fieldname : String
  oldvalue : JsVal
  newvalue : JsVal

/-- One reconciled activity entry; the source names the author field by. -/
structure Entry where
  ts : String
  author : String
  type : String
  text : String
deriving Repr, DecidableEq

/-- Journal row to entry (server.js lines 534-539): upper-cased element
as the type, trimmed body with the contributor tag appended (tag alone
when the body is empty). -/
def journalEntry (r : JournalRow) : Entry :=
  let type := jsToUpper r.element
  let body := jsTrim r.value
  let tag := " #Cont. by " ++ r.sys_created_by
  let text := if !(body == "") then body ++ tag else tag
  ⟨r.sys_created_on, r.sys_created_by, type, text⟩

/-- The de-duplication set (server.js lines 543-547): the timestamps at
which a primary state entry exists in the audit feed. -/
def stateSeenAt (au : List AuditRow) : List String :=
  (au.filter (fun x => jsToLower x.fieldname == "state")).map
    (fun x => x.sys_created_on)

/-- Empty-value substitution (server.js lines 566-567): the placeholder
dash for the empty string, the value itself otherwise (unwrapAuditVal
always returns a string, so the null arm of the source condition is
vacuous). -/
def renderAuditValue (raw : String) : String :=
  if raw == "" then placeholderDash else raw

/-- The arrow glyph of the rendered field change; the source file is
double-encoded, so the literal is the three-character mojibake of a
rightwards arrow. -/
def arrowGlyph : String := "â†’"

/-- Assignment-field name resolution (server.js lines 570-577 together
with resolveAssignedDisplay, lines 270-286): when an unwrapped value is a
raw sys_id, look its label up (the resolver argument abstracts
_resolveDisplayName with admin credentials, cache included) and use the
label when it is truthy; values that are not sys_ids keep their rendered
form. -/
def resolveAssigned (resolver : String → String → String)
    (fl rawOld rawNew oldVal newVal : String) : String × String :=
  let oldId : Option String := if isSysId rawOld then some rawOld else none
  let newId : Option String := if isSysId rawNew then some rawNew else none
  if oldId.isSome || newId.isSome then
    let table := if fl == "assigned_to" then "sys_user" else "sys_user_group"
    let oName := match oldId with
      | some i => resolver table i
      | none => placeholderDash
    let nName := match newId with
      | some i => resolver table i
      | none => placeholderDash
    let oldVal₂ := if oldId.isSome && !(oName == "") then oName else oldVal
    let newVal₂ := if newId.isSome && !(nName == "") then nName else newVal
    (oldVal₂, newVal₂)
  else (oldVal, newVal)

/-- Audit row to entry (server.js lines 550-583): journal-field echoes
are skipped; an incident_state row is dropped when a state row shares its
timestamp and renamed to state otherwise; old and new values are
unwrapped, rendered with the placeholder, resolved for assignment fields,
and joined with the arrow and the contributor tag. -/
def auditEntry (seen : List String) (resolver : String → String → String)
    (r : AuditRow) : Option Entry :=
  let fl := jsToLower r.fieldname
  if fl == "work_notes" || fl == "comments" then none
  else if fl == "incident_state" && seen.contains r.sys_created_on then none
  else
    let f := if fl == "incident_state" then "state" else r.fieldname
    let rawOld := unwrapAuditVal r.oldvalue
    let rawNew := unwrapAuditVal r.newvalue
    let vals :=
      if fl == "assigned_to" || fl == "assignment_group" then
        resolveAssigned resolver fl rawOld rawNew
          (renderAuditValue rawOld) (renderAuditValue rawNew)
      else (renderAuditValue rawOld, renderAuditValue rawNew)
    let tag := " #Cont. by " ++ r.sys_created_by
    some ⟨r.sys_created_on, r.sys_created_by, "FIELD",
          f ++ ": " ++ vals.1 ++ " " ++ arrowGlyph ++ " " ++ vals.2 ++ tag⟩

/-- The sort order of the merged feed (server.js line 586): the
comparator sorts by timestamp descending; localeCompare on the
fixed-width zero-padded upstream timestamps is embedded as lexicographic
string comparison, and Array.prototype.sort is stable, as mergeSort is. -/
def entryLE (a b : Entry) : Bool := decide (b.ts ≤ a.ts)

/-- The merged, de-duplicated, newest-first entry sequence of one
activity request: journal entries, then kept audit entries, sorted. -/
def activityEntries (jf : List JournalRow) (au : List AuditRow)
    (resolver : String → String → String) : List Entry :=
  ((jf.map journalEntry) ++
    au.filterMap (auditEntry (stateSeenAt au) resolver)).mergeSort entryLE

/-- The em dash of the rendered header line, double-encoded as in the
source. -/
def emDashGlyph : String := "â€”"

/-- One rendered narrative line (server.js line 587). -/
def renderLine (e : Entry) : String :=
  "[" ++ e.ts ++ "] " ++ e.author ++ " " ++ emDashGlyph ++ " " ++ e.type ++
  "\n" ++ e.text

/-- The error envelope a failed handler returns. -/
structure ApiError where
  message : String
  detail : String
deriving Repr, DecidableEq

/-- The activity handler (server.js lines 510-599) over the outcomes of
its two upstream fetches: if either feed fetch throws, the catch block
answers with the single Activity fetch failed error and nothing of the
narrative; otherwise the reconciled narrative is returned.  The journal
fetch is awaited first, as in the source. -/
def activityHandler (jfRes : Except String (List JournalRow))
    (auRes : Except String (List AuditRow))
    (resolver : String → String → String) : Except ApiError String :=
  match jfRes with
  | .error e => .error ⟨"Activity fetch failed", e⟩
  | .ok jf =>
    match auRes with
    | .error e => .error ⟨"Activity fetch failed", e⟩
    | .ok au =>
      .ok (String.intercalate "\n" ((activityEntries jf au resolver).map renderLine))

/-! ## Record Update Pipeline (server.js lines 234-245 and 641-705) -/

/-- Property read returning undefined for absent keys, as optional
chaining does. -/
def jsGet (v : JsVal) (k : String) : JsVal :=
  match v with
  | .jobj fs => (findField k fs).getD .jundefined
  | _ => .jundefined

/-- contributorFromSession (server.js lines 234-245): the first truthy
value of the fallback chain over the session user record, stringified by
the template that uses it; unknown when the user record is falsy or the
whole chain is. -/
def contributorFromSession (user : JsVal) : String :=
  if !jsTruthy user then "unknown"
  else
    let cands := [jsGet (jsGet user "user_name") "display_value",
                  jsGet user "user_name",
                  jsGet (jsGet user "email") "display_value",
                  jsGet user "email",
                  jsGet (jsGet user "name") "display_value",
                  jsGet user "name"]
    match cands.find? jsTruthy with
    | some v => jsToString v
    | none => "unknown"

/-- The request body of the update handler; none models an absent
property (JS undefined). -/
structure UpdateBody where
  state : Option JsVal
  impact : Option JsVal
  urgency : Option JsVal
  priority : Option JsVal
  assigned_to : Option JsVal
  assignment_group : Option JsVal
  short_description : Option JsVal
  description : Option JsVal
  work_notes : Option JsVal
  comments : Option JsVal

/-- norm (server.js line 647): the empty string, null and undefined all
collapse to undefined so the field is not sent as a no-op write. -/
def norm : Option JsVal → Option JsVal
  | none => none
  | some v =>
    match v with
    | .jundefined => none
    | .jnull => none
    | .jstr s => if s == "" then none else some (.jstr s)
    | w => some w

/-- Conditional spread into the payload object literal. -/
def consIf (k : String) (v : Option JsVal) (rest : List (String × JsVal)) :
    List (String × JsVal) :=
  match v with
  | some x => (k, x) :: rest
  | none => rest

/-- The structured-field payload (server.js lines 661-670), keys in the
literal order of the source. -/
def fieldsPayload (body : UpdateBody)
    (assigned_to assignment_group : Option JsVal) : List (String × JsVal) :=
  consIf "state" (norm body.state)
    (consIf "impact" (norm body.impact)
      (consIf "urgency" (norm body.urgency)
        (consIf "priority" (norm body.priority)
          (consIf "assigned_to" assigned_to
            (consIf "assignment_group" assignment_group
              (consIf "short_description" (norm body.short_description)
                (consIf "description" (norm body.description) [])))))))

/-- The assignment-reference resolution step (server.js lines 655-658):
an absent property stays absent; a present one passes through pickId and,
when still defined, through resolveRef with the given lookup oracle. -/
def resolveUpdateRef (lookupHit : Option String) (table : String) :
    Option JsVal → Option JsVal
  | none => none
  | some v =>
    match pickId v with
    | .jundefined => none
    | w => some ((resolveRef lookupHit table w).1)

/-- stamp (server.js lines 679-682): the trimmed text with the provenance
line appended, or the empty string. -/
def stamp (who txt : String) : String :=
  let s := jsTrim txt
  if s == "" then "" else s ++ "\n#Cont. by " ++ who

/-- The journal payload (server.js lines 685-690): a provided field is
written stamped when non-empty and as an explicit clear when empty. -/
def notesPayloadOf (who : String) (wnUser acUser : Option String) :
    List (String × String) :=
  (match wnUser with
   | some s => [("work_notes", if !(s == "") then stamp who s else "")]
   | none => []) ++
  (match acUser with
   | some s => [("comments", if !(s == "") then stamp who s else "")]
   | none => [])

/-- One upstream PATCH of the update pipeline: whether it is the journal
write (issued with sysparm_input_display_value=true) and its payload. -/
structure PatchCall where
  displayValueMode : Bool
  payload : List (String × JsVal)

/-- The PATCH calls the update handler issues (server.js lines 641-700),
in order: the structured-field PATCH when its payload is non-empty, then
the journal PATCH when a journal field is present.  The read-only
snapshot GET of line 651 and the resolver lookups are not PATCHes and are
not listed. -/
def recordUpdatePatches (userLookup grpLookup : Option String)
    (user : JsVal) (body : UpdateBody) : List PatchCall :=
  let assigned_to := resolveUpdateRef userLookup "sys_user" body.assigned_to
  let assignment_group :=
    resolveUpdateRef grpLookup "sys_user_group" body.assignment_group
  let fp := fieldsPayload body assigned_to assignment_group
  let who := contributorFromSession user
  let wnUser := body.work_notes.map (fun v => jsTrim (jsToString v))
  let acUser := body.comments.map (fun v => jsTrim (jsToString v))
  let np := notesPayloadOf who wnUser acUser
  (if !fp.isEmpty then [⟨false, fp⟩] else []) ++
  (if !np.isEmpty then [⟨true, np.map (fun p => (p.1, JsVal.jstr p.2))⟩] else [])

/-! ## Claims -/

/-- C5: every input string already in canonical identifier shape (32 hex
characters) is returned unchanged by resolveRef, with zero upstream
calls. -/
theorem C5_resolveRef_sysid_identity (lookupHit : Option String)
    (forceTable : String) (s : String) (h : isSysId s = true) :
    resolveRef lookupHit forceTable (.jstr s) = (.jstr s, 0) := by
  have hne : (s == "") = false := by
    rcases hs : s == "" with _ | _
    · rfl
    · exfalso
      have hs2 : s = "" := by simpa using hs
      subst hs2
      simp [isSysId] at h
  simp [resolveRef, pickId, jsTruthy, isSysIdVal, hne, h]

theorem C5_witness :
    isSysId "0123456789abcdef0123456789abcdef" = true ∧
    resolveRef (some "ffffffffffffffffffffffffffffffff") "sys_user"
      (.jstr "0123456789abcdef0123456789abcdef") =
      (.jstr "0123456789abcdef0123456789abcdef", 0) :=
  ⟨by decide,
   C5_resolveRef_sysid_identity (some "ffffffffffffffffffffffffffffffff")
     "sys_user" "0123456789abcdef0123456789abcdef" (by decide)⟩

/-- C9: a request whose Authorization header does not carry a Bearer
token is still authenticated when its token query parameter maps to a
live session; the query-string token is a full equivalent of the bearer
header. -/
theorem C9_query_token_authenticates (authHeader queryToken : String)
    (sessions : List (String × Session)) (s : Session)
    (hB : jsStartsWith authHeader "Bearer " = false)
    (hq : (queryToken == "") = false)
    (hs : (sessions.find? (fun p => p.1 == queryToken)).map (fun p => p.2) = some s) :
    requireAuth authHeader queryToken sessions = some s := by
  simp [requireAuth, requireAuthToken, hB, hq, hs]

theorem C9_witness :
    jsStartsWith "" "Bearer " = false ∧
    ("tok1" == "") = false ∧
    requireAuth "" "tok1" [("tok1", ⟨.jobj [], "admin", "u1", []⟩)] =
      some ⟨.jobj [], "admin", "u1", []⟩ :=
  ⟨by decide, by decide,
   C9_query_token_authenticates "" "tok1" [("tok1", ⟨.jobj [], "admin", "u1", []⟩)]
     ⟨.jobj [], "admin", "u1", []⟩ (by decide) (by decide) rfl⟩

/-- C1: the claim says a 4xx response fails immediately with no retry.
The code violates it: the typed error thrown for a non-5xx failure sits
inside the try block, so the catch clause written for network failures
retries it while budget remains.  With the default budget of one retry, a
server answering HTTP 403 on every attempt is fetched twice before the
call fails. -/
theorem C1_fourxx_retried :
    snCall (fun _ => .resp ⟨403, false, "HTTP 403 Forbidden"⟩) 1 =
      (.error ⟨"HTTP 403 Forbidden", some 403⟩, 2) := rfl

/-- C2: if fetching either the journal feed or the field-audit feed
fails, the whole activity request fails with the single Activity fetch
failed error; no narrative (hence no partial narrative) is returned. -/
theorem C2_activity_all_or_nothing (jfRes : Except String (List JournalRow))
    (auRes : Except String (List AuditRow))
    (resolver : String → String → String)
    (h : (∃ e, jfRes = .error e) ∨ (∃ e, auRes = .error e)) :
    ∃ d, activityHandler jfRes auRes resolver =
      .error ⟨"Activity fetch failed", d⟩ := by
  rcases h with ⟨e, he⟩ | ⟨e, he⟩
  · subst he
    exact ⟨e, rfl⟩
  · subst he
    cases jfRes with
    | error e₂ => exact ⟨e₂, rfl⟩
    | ok jf => exact ⟨e, rfl⟩

theorem C2_witness :
    ∃ d, activityHandler (.ok [⟨"2024-01-01 00:00:00", "jdoe", "work_notes", "hi"⟩])
      (.error "HTTP 500 Internal Server Error") (fun _ i => i) =
      .error ⟨"Activity fetch failed", d⟩ :=
  C2_activity_all_or_nothing _ _ _ (.inr ⟨"HTTP 500 Internal Server Error", rfl⟩)

/-- C4: the scenario update with state 2 and the work note checking now,
submitted by the identity jdoe, issues exactly one structured-field PATCH
carrying only the state and exactly one journal PATCH carrying the
stamped work note. -/
theorem C4_update_two_patches :
    recordUpdatePatches none none (.jobj [("user_name", .jstr "jdoe")])
      ⟨some (.jstr "2"), none, none, none, none, none, none, none,
       some (.jstr "checking now"), none⟩ =
      [⟨false, [("state", .jstr "2")]⟩,
       ⟨true, [("work_notes", .jstr "checking now\n#Cont. by jdoe")]⟩] := rfl

/-- C6: when the cached entry for a key has expired, resolveDisplayName
performs exactly one upstream fetch, the label it returns is fully
determined by the fetch outcome and the raw sys_id (the stale cached
label is never consulted), and on fetch success the entry is replaced by
the freshly fetched label with a new expiry; a cached label is only ever
served from the unexpired branch. -/
theorem C6_expired_entry_never_served (cache : List (String × NameCacheEntry))
    (now : Nat) (fetch : Option NameFetchRec) (table sys_id : String)
    (hit : NameCacheEntry)
    (hid : (sys_id == "") = false)
    (hhit : cacheGet (table ++ ":" ++ sys_id) cache = some hit)
    (hexp : hit.exp ≤ now) :
    resolveDisplayName cache now fetch table sys_id =
      (match fetch with
       | some r => (nmOf r sys_id,
           cacheSet (table ++ ":" ++ sys_id) ⟨nmOf r sys_id, now + NAME_TTL_MS⟩ cache, 1)
       | none => (sys_id, cache, 1)) ∧
    (∀ r, fetch = some r →
      cacheGet (table ++ ":" ++ sys_id)
        (resolveDisplayName cache now fetch table sys_id).2.1 =
        some ⟨nmOf r sys_id, now + NAME_TTL_MS⟩) := by
  have hnl : ¬ now < hit.exp := by omega
  cases fetch with
  | none =>
    refine ⟨?_, ?_⟩
    · simp [resolveDisplayName, hid, hhit, hnl]
    · intro r hr
      exact absurd hr (by simp)
  | some r =>
    refine ⟨?_, ?_⟩
    · simp [resolveDisplayName, hid, hhit, hnl]
    · intro r₂ hr
      obtain rfl := Option.some.inj hr
      simp [resolveDisplayName, hid, hhit, hnl, cacheGet_cacheSet]

theorem C6_witness :
    ("u1ffffffffffffffffffffffffffffff" == "") = false ∧
    cacheGet "sys_user:u1ffffffffffffffffffffffffffffff"
      [("sys_user:u1ffffffffffffffffffffffffffffff", ⟨"Stale Label", 1000⟩)] =
      some ⟨"Stale Label", 1000⟩ ∧
    (1000 : Nat) ≤ 400000 ∧
    (resolveDisplayName
        [("sys_user:u1ffffffffffffffffffffffffffffff", ⟨"Stale Label", 1000⟩)]
        400000 (some ⟨"Fresh Name", ""⟩) "sys_user"
        "u1ffffffffffffffffffffffffffffff" =
      ("Fresh Name",
       [("sys_user:u1ffffffffffffffffffffffffffffff", ⟨"Fresh Name", 400000 + NAME_TTL_MS⟩)],
       1)) :=
  ⟨by decide, rfl, by decide,
   (C6_expired_entry_never_served
      [("sys_user:u1ffffffffffffffffffffffffffffff", ⟨"Stale Label", 1000⟩)]
      400000 (some ⟨"Fresh Name", ""⟩) "sys_user"
      "u1ffffffffffffffffffffffffffffff" ⟨"Stale Label", 1000⟩
      (by decide) rfl (by decide)).1⟩

/-- The scalar JS values: typeof string, number or boolean. -/
def isScalar : JsVal → Bool
  | .jstr _ => true
  | .jint _ => true
  | .jbool _ => true
  | _ => false

/-- C8 counterexample: the claim says a plain scalar is returned in its
string form unchanged, but unwrapAuditVal ends in trim, so a string
scalar carrying surrounding whitespace is altered. -/
theorem C8_counterexample :
    unwrapAuditVal (.jstr " a ") = "a" ∧
    jsToString (.jstr " a ") = " a " ∧
    ("a" : String) ≠ " a " := by
  refine ⟨?_, rfl, by decide⟩
  simp [unwrapAuditVal, unwrapDeep]
  decide

/-- C8 (amended): unwrapping a plain scalar returns the string form of
the scalar trimmed of surrounding whitespace -- unchanged exactly when
the string form carries none, as is always the case for numbers and
booleans -- and an empty or null audit value renders as the placeholder
dash. -/
theorem C8_unwrap_scalar_trim (v : JsVal) (h : isScalar v = true) :
    unwrapAuditVal v = jsTrim (jsToString v) ∧
    unwrapAuditVal .jnull = "" ∧
    renderAuditValue (unwrapAuditVal .jnull) = placeholderDash ∧
    renderAuditValue "" = placeholderDash := by
  have hnull : unwrapAuditVal JsVal.jnull = "" := by
    simp [unwrapAuditVal, unwrapDeep]
    decide
  refine ⟨?_, hnull, by rw [hnull]; rfl, rfl⟩
  cases v with
  | jstr s => simp [unwrapAuditVal, unwrapDeep, jsToString]
  | jint n => simp [unwrapAuditVal, unwrapDeep, jsToString]
  | jbool b => simp [unwrapAuditVal, unwrapDeep, jsToString]
  | jnull => simp [isScalar] at h
  | jundefined => simp [isScalar] at h
  | jobj fs => simp [isScalar] at h

theorem C8_witness :
    isScalar (.jstr "2") = true ∧
    unwrapAuditVal (.jstr "2") = jsTrim (jsToString (.jstr "2")) :=
  ⟨by decide, (C8_unwrap_scalar_trim (.jstr "2") (by decide)).1⟩

/-- C10: a kind-specific status-alias audit entry that survives
de-duplication (no primary state entry at its timestamp) is rendered
under the primary field name state: its rendered line is the state label
followed by the unwrapped old and new values, never the alias name. -/
theorem C10_alias_renders_as_state (seen : List String)
    (resolver : String → String → String) (r : AuditRow)
    (hfl : jsToLower r.fieldname = "incident_state")
    (hseen : seen.contains r.sys_created_on = false) :
    auditEntry seen resolver r =
      some ⟨r.sys_created_on, r.sys_created_by, "FIELD",
        "state: " ++ renderAuditValue (unwrapAuditVal r.oldvalue) ++ " " ++
        arrowGlyph ++ " " ++ renderAuditValue (unwrapAuditVal r.newvalue) ++
        (" #Cont. by " ++ r.sys_created_by)⟩ := by
  have hseen₂ : r.sys_created_on ∉ seen := by simpa using hseen
  simp [auditEntry, hfl, hseen₂]

theorem C10_witness :
    jsToLower "incident_state" = "incident_state" ∧
    ([] : List String).contains "2024-01-01 00:00:00" = false ∧
    auditEntry [] (fun _ i => i)
      ⟨"2024-01-01 00:00:00", "admin", "incident_state", .jstr "1", .jstr "2"⟩ =
      some ⟨"2024-01-01 00:00:00", "admin", "FIELD",
        "state: " ++ renderAuditValue (unwrapAuditVal (.jstr "1")) ++ " " ++
        arrowGlyph ++ " " ++ renderAuditValue (unwrapAuditVal (.jstr "2")) ++
        (" #Cont. by " ++ "admin")⟩ :=
  ⟨by decide, by decide,
   C10_alias_renders_as_state [] (fun _ i => i)
     ⟨"2024-01-01 00:00:00", "admin", "incident_state", .jstr "1", .jstr "2"⟩
     (by decide) (by decide)⟩

/-- C7: in every reconciled narrative the merged entry sequence is sorted
by timestamp descending under lexicographic string comparison: for any
entry appearing before another, the timestamp of the later entry is less
than or equal, so the entry with the strictly larger timestamp always
appears first. -/
theorem C7_narrative_sorted_desc (jf : List JournalRow) (au : List AuditRow)
    (resolver : String → String → String) :
    (activityEntries jf au resolver).Pairwise (fun a b => b.ts ≤ a.ts) := by
  have htrans : ∀ a b c : Entry,
      entryLE a b = true → entryLE b c = true → entryLE a c = true := by
    intro a b c hab hbc
    simp only [entryLE, decide_eq_true_eq] at hab hbc ⊢
    exact le_trans hbc hab
  have htotal : ∀ a b : Entry, (entryLE a b || entryLE b a) = true := by
    intro a b
    simp only [entryLE, Bool.or_eq_true, decide_eq_true_eq]
    exact le_total b.ts a.ts
  have hs := @List.sorted_mergeSort Entry entryLE htrans htotal
    ((jf.map journalEntry) ++ au.filterMap (auditEntry (stateSeenAt au) resolver))
  unfold activityEntries
  exact hs.imp (fun hab => by simpa only [entryLE, decide_eq_true_eq] using hab)

/-! ## De-duplication counting (claim C3) -/

theorem auditEntry_ts (seen : List String) (resolver : String → String → String)
    (r : AuditRow) (e : Entry) (h : auditEntry seen resolver r = some e) :
    e.ts = r.sys_created_on := by
  simp only [auditEntry] at h
  split at h
  · exact absurd h (by simp)
  · split at h
    · exact absurd h (by simp)
    · obtain rfl := Option.some.inj h
      rfl

theorem countP_filterMap_ts (seen : List String)
    (resolver : String → String → String) (t : String) :
    ∀ au : List AuditRow,
      List.countP (fun e => e.ts == t) (au.filterMap (auditEntry seen resolver)) =
      List.countP
        (fun r => (auditEntry seen resolver r).isSome && (r.sys_created_on == t)) au := by
  intro au
  induction au with
  | nil => simp
  | cons r rest ih =>
    rcases h : auditEntry seen resolver r with _ | e
    · simp [List.filterMap_cons, h, List.countP_cons, ih]
    · have hts : e.ts = r.sys_created_on := auditEntry_ts seen resolver r e h
      simp [List.filterMap_cons, h, List.countP_cons, ih, hts]

theorem mem_stateSeenAt {au : List AuditRow} {r : AuditRow}
    (hr : r ∈ au) (hfl : jsToLower r.fieldname = "state") :
    (stateSeenAt au).contains r.sys_created_on = true := by
  have hmem : r.sys_created_on ∈ stateSeenAt au := by
    simp only [stateSeenAt, List.mem_map, List.mem_filter]
    exact ⟨r, ⟨hr, by simp [hfl]⟩, rfl⟩
  simpa using hmem

theorem auditEntry_state_isSome (seen : List String)
    (resolver : String → String → String) (r : AuditRow)
    (hfl : jsToLower r.fieldname = "state") :
    (auditEntry seen resolver r).isSome = true := by
  simp [auditEntry, hfl]

theorem auditEntry_alias_seen_none (seen : List String)
    (resolver : String → String → String) (r : AuditRow)
    (hfl : jsToLower r.fieldname = "incident_state")
    (hseen : seen.contains r.sys_created_on = true) :
    auditEntry seen resolver r = none := by
  have hseen₂ : r.sys_created_on ∈ seen := by simpa using hseen
  simp [auditEntry, hfl, hseen₂]

/-- A primary status-field audit row at timestamp t. -/
def isStateRowAt (t : String) (r : AuditRow) : Bool :=
  (jsToLower r.fieldname == "state") && (r.sys_created_on == t)

/-- A kind-specific status-alias audit row at timestamp t. -/
def isAliasRowAt (t : String) (r : AuditRow) : Bool :=
  (jsToLower r.fieldname == "incident_state") && (r.sys_created_on == t)

/-- Any other audit row at timestamp t. -/
def isOtherRowAt (t : String) (r : AuditRow) : Bool :=
  !(jsToLower r.fieldname == "state") &&
  !(jsToLower r.fieldname == "incident_state") && (r.sys_created_on == t)

/-- C3: when the field-audit feed carries, at timestamp t, exactly one
primary state entry and one incident_state alias entry (and nothing else
at t, the journal feed included), the reconciled narrative contains
exactly one entry at t: the alias entry is discarded. -/
theorem C3_dedupe_exactly_one (jf : List JournalRow) (au : List AuditRow)
    (resolver : String → String → String) (t : String)
    (hstate : List.countP (isStateRowAt t) au = 1)
    (halias : List.countP (isAliasRowAt t) au = 1)
    (hother : List.countP (isOtherRowAt t) au = 0)
    (hjf : List.countP (fun j => j.sys_created_on == t) jf = 0) :
    List.countP (fun e => e.ts == t) (activityEntries jf au resolver) = 1 := by
  -- sorting permutes, so counts carry over to the unsorted merge
  have hperm := List.mergeSort_perm
    ((jf.map journalEntry) ++ au.filterMap (auditEntry (stateSeenAt au) resolver)) entryLE
  rw [activityEntries, hperm.countP_eq, List.countP_append]
  -- the journal side contributes nothing at t
  have hj : List.countP (fun e => e.ts == t) (jf.map journalEntry) = 0 := by
    rw [List.countP_map]
    have : ∀ j : JournalRow,
        ((fun e => e.ts == t) ∘ journalEntry) j = (j.sys_created_on == t) := by
      intro j
      rfl
    rw [List.countP_congr (fun j _ => by rw [this j])]
    exact hjf
  -- on the audit side only the primary state row survives at t
  have ha : List.countP (fun e => e.ts == t)
      (au.filterMap (auditEntry (stateSeenAt au) resolver)) = 1 := by
    rw [countP_filterMap_ts]
    have hmem : ∀ r ∈ au,
        ((auditEntry (stateSeenAt au) resolver r).isSome &&
          (r.sys_created_on == t)) = isStateRowAt t r := by
      intro r hr
      by_cases hts : r.sys_created_on = t
      · have hother₂ := List.countP_eq_zero.mp hother r hr
        simp only [isOtherRowAt, hts, Bool.and_eq_true, Bool.not_eq_true',
          beq_iff_eq, beq_self_eq_true, and_true, not_and, Bool.not_eq_false] at hother₂
        by_cases hstatef : jsToLower r.fieldname = "state"
        · simp [isStateRowAt, hstatef, hts,
            auditEntry_state_isSome (stateSeenAt au) resolver r hstatef]
        · have haliasf : jsToLower r.fieldname = "incident_state" := by
            rcases hb : jsToLower r.fieldname == "state" with _ | _
            · have hb₂ := hother₂ (by simpa using hb)
              simpa using hb₂
            · exact absurd (by simpa using hb) hstatef
          -- a state row exists at t, so the alias row is dropped
          have hpos : 0 < List.countP (isStateRowAt t) au := by omega
          obtain ⟨s, hsmem, hsP⟩ := List.countP_pos_iff.mp hpos
          simp only [isStateRowAt, Bool.and_eq_true, beq_iff_eq] at hsP
          have hcont : (stateSeenAt au).contains r.sys_created_on = true := by
            rw [hts, ← hsP.2]
            exact mem_stateSeenAt hsmem hsP.1
          rw [auditEntry_alias_seen_none (stateSeenAt au) resolver r haliasf hcont]
          simp [isStateRowAt, hstatef]
      · have hbf : (r.sys_created_on == t) = false := by simpa using hts
        simp [isStateRowAt, hbf]
    rw [List.countP_congr (fun r hr => by rw [hmem r hr])]
    exact hstate
  rw [hj, ha]

theorem C3_witness :
    List.countP (isStateRowAt "2024-01-01 00:00:00")
      [(⟨"2024-01-01 00:00:00", "admin", "state", .jstr "1", .jstr "2"⟩ : AuditRow),
       ⟨"2024-01-01 00:00:00", "admin", "incident_state", .jstr "1", .jstr "2"⟩] = 1 ∧
    List.countP (isAliasRowAt "2024-01-01 00:00:00")
      [(⟨"2024-01-01 00:00:00", "admin", "state", .jstr "1", .jstr "2"⟩ : AuditRow),
       ⟨"2024-01-01 00:00:00", "admin", "incident_state", .jstr "1", .jstr "2"⟩] = 1 ∧
    List.countP (fun e => e.ts == "2024-01-01 00:00:00")
      (activityEntries []
        [⟨"2024-01-01 00:00:00", "admin", "state", .jstr "1", .jstr "2"⟩,
         ⟨"2024-01-01 00:00:00", "admin", "incident_state", .jstr "1", .jstr "2"⟩]
        (fun _ i => i)) = 1 :=
  ⟨by decide, by decide,
   C3_dedupe_exactly_one []
     [⟨"2024-01-01 00:00:00", "admin", "state", .jstr "1", .jstr "2"⟩,
      ⟨"2024-01-01 00:00:00", "admin", "incident_state", .jstr "1", .jstr "2"⟩]
     (fun _ i => i) "2024-01-01 00:00:00"
     (by decide) (by decide) (by decide) (by decide)⟩
